import Mathlib

/-!
# profile_site : scene assembly and pointer interaction of `src/main.js`

A shallow embedding of the single script of the repository.  The script keeps
its state in module-level variables (`sizes`, `scene`, `clickableObjects`,
`hoveredObject`, the camera and the renderer) and changes it from four
callbacks: the model-load callback, and the `mousemove`, `click` and `resize`
listeners.  Here the module-level variables are the fields of one record,
`World`, and every callback is a function from `World` to `World`.

Conventions of the embedding.

* JavaScript numbers are an arbitrary type `R` carrying the arithmetic the
  script uses (`JSNumber R`); nothing proved for all `R` depends on how that
  arithmetic rounds.  Concrete evaluations are carried out over `ℚ`.
  The numeric literals of the script are written with a decimal point
  (`0` is `0.0`), JavaScript having one number type.
* `String.prototype.toLowerCase` belongs to the host; it is the parameter
  `toLowerCase` of every definition that lower-cases a name.
* The rendering and tweening libraries are not modelled.  What the script asks
  of them is recorded: `gsap.to` calls are appended to `World.tweens`,
  `scene.add` calls to `World.sceneChildren`, `window.open` calls to
  `World.opened`, and the objects a traversal or a ray cast hands to the script
  are inputs.
* Objects are compared by reference in the script; here every scene object
  carries the integer `id` three.js gives it, and `!==` compares ids.
-/

namespace ProfileSite

/-! ## Host values -/

/-- Arithmetic on JavaScript numbers, as far as the script uses it. -/
class JSNumber (R : Type) extends Add R, Sub R, Mul R, Div R, Neg R, OfScientific R

instance : JSNumber ℚ := {}

/-- Worker of `includes` on character lists. -/
def includesChars : List Char → List Char → Bool
  | [], pat => pat.isEmpty
  | c :: cs, pat => pat.isPrefixOf (c :: cs) || includesChars cs pat

/-- The method `String.prototype.includes` : `pat` occurs in `s` as a contiguous substring. -/
def includes (s pat : String) : Bool := includesChars s.data pat.data

/-- Lower-casing of the ASCII letters, one admissible value of the parameter
`toLowerCase` (it agrees with the host function on ASCII names). -/
def asciiToLowerCase (s : String) : String := ⟨s.data.map Char.toLower⟩

/-- The class `THREE.Vector3`. -/
structure Vector3 (R : Type) where
  x : R
  y : R
  z : R

/-- The class `THREE.Vector2`. -/
structure Vector2 (R : Type) where
  x : R
  y : R

/-! ## Configuration (main.js, section 3) -/

/-- The record type of `socialLinks`. -/
structure SocialLinks where
  github : String
  linkedin : String

/-- The constant `socialLinks` (lines 21-24). -/
def socialLinks : SocialLinks :=
  { github := "https://github.com/ChungYuEricson"
    linkedin := "https://www.linkedin.com/in/ericson-ho-28b85a265/" }

/-- The constant `textureMap` (lines 26-35), in property order. -/
def textureMap : List (String × String) :=
  [ ("backdrop", "textures/room/backdrop.webp"),
    ("room", "textures/room/background.001.webp"),
    ("github", "textures/room/Poster.001.webp"),
    ("linkedin", "textures/room/Poster.001.webp"),
    ("chair", "textures/room/chair2.webp"),
    ("table", "textures/room/drawerlamptable.webp"),
    ("headset", "textures/room/headset.webp"),
    ("deskobjects", "textures/room/deskobjects.webp") ]

/-- Materials a mesh can refer to.  `gltf n` is a material that came with the
model file; `basic slot map` is the `MeshBasicMaterial` created by the
`slot`-th iteration of the loop of lines 38-46 around the texture loaded from
`map` (two iterations give two distinct objects, also for the same path);
`glass` is the one `MeshPhysicalMaterial` of lines 74-76; `undefined` is the
value of a failed property read. -/
inductive Material where
  | gltf (n : Nat)
  | basic (slot : Nat) (map : String)
  | glass
  | undefined
  deriving DecidableEq

/-- Loop of lines 38-46, started at iteration `i`. -/
def loadMaterials : Nat → List (String × String) → List (String × Material)
  | _, [] => []
  | i, (key, path) :: rest => (key, Material.basic i path) :: loadMaterials (i + 1) rest

/-- The table `loadedTextures` once the loop of lines 38-46 has run. -/
def loadedTextures : List (String × Material) := loadMaterials 0 textureMap

/-- The function `Object.keys` on a table kept in property order. -/
def Object.keys {α : Type} (o : List (String × α)) : List String := o.map Prod.fst

/-- The constant `glassMaterial` (lines 74-76). -/
def glassMaterial : Material := Material.glass

/-! ## Scene objects -/

/-- The two `userData` properties the script writes and reads (lines 104-105). -/
structure UserData (R : Type) where
  originalScale : Option (Vector3 R)
  shadow : Option Nat

/-- A node of the loaded model graph (`THREE.Object3D`), with the properties
the script touches.  `userData.shadow` refers to a shadow decal by its index
in `World.shadows`. -/
structure Object3D (R : Type) where
  id : Nat
  name : String
  isMesh : Bool
  position : Vector3 R
  scale : Vector3 R
  material : Material
  userData : UserData R

/-- A shadow decal: the mesh built by `createShadow`, with the properties the
script sets on it afterwards (geometry, texture and rotation are not read by
any property below and are left out). -/
structure ShadowMesh (R : Type) where
  position : Vector3 R
  scale : Vector3 R
  opacity : R

mutual
/-- The model graph handed to the load callback: a node and its children. -/
inductive Graph (α : Type) where
  | node (obj : α) (children : Forest α)
/-- The list of children of a node, in order. -/
inductive Forest (α : Type) where
  | nil
  | cons (first : Graph α) (rest : Forest α)
end

/-- What `scene.add` has been called with. -/
inductive SceneChild where
  | shadow (index : Nat)
  | gltfScene
  deriving DecidableEq

/-- The animated property a `gsap.to` call is aimed at. -/
inductive TweenTarget where
  | objectScale (id : Nat)
  | shadowScale (index : Nat)
  | shadowMaterial (index : Nat)
  | cameraPosition
  | selector (css : String)
  deriving DecidableEq

/-- The second argument of `gsap.to`; an absent property is `none`. -/
structure TweenVars (R : Type) where
  x : Option R
  y : Option R
  z : Option R
  opacity : Option R
  height : Option String
  duration : R
  delay : Option R
  ease : Option String

/-- One `gsap.to` (or timeline `to`) call. -/
structure Tween (R : Type) where
  target : TweenTarget
  vars : TweenVars R

/-- The record `sizes` (line 10). -/
structure Sizes (R : Type) where
  width : R
  height : R

/-- The module-level state of the script together with the log of the calls it
has made into the libraries and the host. -/
structure World (R : Type) where
  sizes : Sizes R
  sceneChildren : List SceneChild
  shadows : List (ShadowMesh R)
  model : List (Object3D R)
  clickableObjects : List (Object3D R)
  tweens : List (Tween R)
  timeline : List (Tween R × Option String)
  hoveredObject : Option (Object3D R)
  cursor : String
  mouse : Vector2 R
  opened : List (String × String)
  cameraAspect : R
  projectionUpdates : Nat
  rendererSize : R × R

set_option linter.unusedSectionVars false

variable {R : Type} [JSNumber R]

/-- The state after the top-level statements of the script have run in a
window of the given inner size, before any callback. -/
def init (innerWidth innerHeight : R) : World R :=
  { sizes := { width := innerWidth, height := innerHeight }
    sceneChildren := []
    shadows := []
    model := []
    clickableObjects := []
    tweens := []
    timeline := []
    hoveredObject := none
    cursor := ""
    mouse := { x := 0.0, y := 0.0 }
    opened := []
    cameraAspect := innerWidth / innerHeight
    projectionUpdates := 0
    rendererSize := (innerWidth, innerHeight) }

/-! ## Scene assembly (main.js, section 5) -/

mutual
/-- The order in which `Object3D.traverse` passes the nodes of a graph to its
callback: the node itself, then each child's subtree in turn. -/
def Graph.traverse {α : Type} : Graph α → List α
  | .node obj children => obj :: children.traverse
/-- The traversal of the children of a node, one after the other. -/
def Forest.traverse {α : Type} : Forest α → List α
  | .nil => []
  | .cons first rest => first.traverse ++ rest.traverse
end

/-- Lines 81-86: the material the load callback leaves on a mesh.  The key is
the first key of `loadedTextures` equal to the name after lower-casing both;
a key that is found and truthy (a non-empty string) selects its table entry,
otherwise a name that includes "Glass" selects `glassMaterial`, otherwise the
material is left as it is. -/
def assignMaterial (toLowerCase : String → String) (child : Object3D R) : Object3D R :=
  let glassOrKeep : Object3D R :=
    if includes child.name "Glass" then { child with material := glassMaterial } else child
  match (Object.keys loadedTextures).find? (fun key => toLowerCase key == toLowerCase child.name) with
  | some textureKey =>
      if textureKey ≠ "" then
        { child with material := (loadedTextures.lookup textureKey).getD Material.undefined }
      else glassOrKeep
  | none => glassOrKeep

/-- Lines 49-70: the mesh returned by `createShadow` (default position and
scale of a new mesh, material opacity 0). -/
def createShadow : ShadowMesh R :=
  { position := { x := 0.0, y := 0.0, z := 0.0 }
    scale := { x := 1.0, y := 1.0, z := 1.0 }
    opacity := 0.0 }

/-- Lines 94-98: the position given to the shadow of a mesh at `position`
whose lower-cased name is `name`; `current` is the position the shadow has. -/
def shadowPosition (name : String) (position current : Vector3 R) : Vector3 R :=
  if includes name "linkedin" then
    { x := position.x - 0.001, y := position.y + 0.4, z := position.z - 0.4 }
  else if includes name "github" then
    { x := position.x - 0.001, y := position.y + 0.4, z := position.z - 2.5 }
  else current

/-- Line 108: the start delay of the entrance interpolations of a mesh whose
lower-cased name is `name`. -/
def entranceDelay (name : String) : R :=
  if includes name "github" then 0.2 else 0.6

/-- Lines 110-113: the entrance interpolation of the scale of mesh `id`. -/
def entranceScaleTween (id : Nat) (originalScale : Vector3 R) (delay : R) : Tween R :=
  { target := TweenTarget.objectScale id
    vars := { x := some originalScale.x, y := some originalScale.y, z := some originalScale.z
              opacity := none, height := none
              duration := 1.2, delay := some delay, ease := some "back.out(1.7)" } }

/-- Lines 115-118: the entrance interpolation of the scale of shadow `index`. -/
def entranceShadowTween (index : Nat) (originalScale : Vector3 R) (delay : R) : Tween R :=
  { target := TweenTarget.shadowScale index
    vars := { x := some (originalScale.z * 1.4), y := some (originalScale.y * 0.8), z := some 1.0
              opacity := none, height := none
              duration := 1.2, delay := some delay, ease := some "back.out(1.7)" } }

/-- Lines 120-122: the fade-in of the material of shadow `index`. -/
def entranceOpacityTween (index : Nat) (delay : R) : Tween R :=
  { target := TweenTarget.shadowMaterial index
    vars := { x := none, y := none, z := none
              opacity := some 1.0, height := none
              duration := 1.0, delay := some (delay + 0.2), ease := none } }

/-- Lines 88-123: registration of a mesh as clickable.  The script pushes the
reference `child` first and mutates the object afterwards; here the entry
pushed is the object as the callback leaves it.  The new shadow gets the next
free index of `World.shadows`. -/
def registerClickable (toLowerCase : String → String) (w : World R) (child : Object3D R) :
    World R × Object3D R :=
  let name := toLowerCase child.name
  if includes name "github" || includes name "linkedin" then
    let index := w.shadows.length
    let shadow : ShadowMesh R :=
      { (createShadow : ShadowMesh R) with
        position := shadowPosition name child.position (createShadow : ShadowMesh R).position
        scale := { x := 0.0, y := 0.0, z := 0.0 } }
    let originalScale := child.scale
    let entry : Object3D R :=
      { child with
        userData := { originalScale := some originalScale, shadow := some index }
        scale := { x := 0.0, y := 0.0, z := 0.0 } }
    let delay : R := entranceDelay name
    ({ w with
        clickableObjects := w.clickableObjects ++ [entry]
        shadows := w.shadows ++ [shadow]
        sceneChildren := w.sceneChildren ++ [SceneChild.shadow index]
        tweens := w.tweens ++
          [ entranceScaleTween child.id originalScale delay,
            entranceShadowTween index originalScale delay,
            entranceOpacityTween index delay ] },
      entry)
  else (w, child)

/-- Lines 79-125: the callback passed to `traverse`, applied to one node.  The
node as the callback leaves it is appended to `World.model`. -/
def onChild (toLowerCase : String → String) (w : World R) (child : Object3D R) : World R :=
  if child.isMesh then
    let r := registerClickable toLowerCase w (assignMaterial toLowerCase child)
    { r.1 with model := r.1.model ++ [r.2] }
  else { w with model := w.model ++ [child] }

/-- The callback applied to a sequence of nodes in the order given. -/
def visitAll (toLowerCase : String → String) (w : World R) (nodes : List (Object3D R)) : World R :=
  nodes.foldl (onChild toLowerCase) w

/-- Lines 128-139: the calls made on the entrance timeline. -/
def entranceTimeline : List (Tween R × Option String) :=
  [ ({ target := TweenTarget.cameraPosition
       vars := { x := some 13.88, y := some 2.88, z := some 7.68
                 opacity := none, height := none
                 duration := 3.0, delay := none, ease := some "power2.inOut" } }, none),
    ({ target := TweenTarget.selector "#ui-widget"
       vars := { x := none, y := none, z := none
                 opacity := some 1.0, height := none
                 duration := 0.3, delay := none, ease := none } }, some "-=0.5"),
    ({ target := TweenTarget.selector "#ui-widget"
       vars := { x := none, y := none, z := none
                 opacity := none, height := some "260px"
                 duration := 1.5, delay := none, ease := some "expo.out" } }, none) ]

/-- Lines 78-140: the load callback on the graph `gltfScene`. -/
def loadCallback (toLowerCase : String → String) (w : World R) (gltfScene : Graph (Object3D R)) :
    World R :=
  let w1 := visitAll toLowerCase w gltfScene.traverse
  { w1 with
    sceneChildren := w1.sceneChildren ++ [SceneChild.gltfScene]
    timeline := w1.timeline ++ entranceTimeline }

/-! ## Interactivity (main.js, section 7) -/

/-- One element of the array returned by `raycaster.intersectObjects`. -/
structure Intersection (R : Type) where
  distance : R
  object : Object3D R

/-- A `mousemove` event: the pointer coordinates, and the array the ray cast
of line 169 returns for them (nearest intersection first). -/
structure PointerMove (R : Type) where
  clientX : R
  clientY : R
  intersects : List (Intersection R)

/-- How a listener ends: normally, or by the `TypeError` of reading a property
of `undefined`; each carries the state the listener leaves behind. -/
inductive Completion (σ : Type) where
  | normal (state : σ)
  | typeError (state : σ)

/-- The state a listener leaves behind. -/
def Completion.state {σ : Type} : Completion σ → σ
  | .normal s => s
  | .typeError s => s

/-- Line 177: the hover-in interpolation of the scale of mesh `id`. -/
def hoverInScaleTween (id : Nat) (s : Vector3 R) : Tween R :=
  { target := TweenTarget.objectScale id
    vars := { x := some (s.x * 1.05), y := some (s.y * 1.05), z := some (s.z * 1.05)
              opacity := none, height := none
              duration := 0.3, delay := none, ease := none } }

/-- Line 178: the hover-in interpolation of the scale of shadow `index`. -/
def hoverInShadowTween (index : Nat) (s : Vector3 R) : Tween R :=
  { target := TweenTarget.shadowScale index
    vars := { x := some (s.z * 1.45), y := some (s.y * 0.85), z := none
              opacity := none, height := none
              duration := 0.3, delay := none, ease := none } }

/-- Line 182: the hover-out interpolation of the scale of mesh `id`. -/
def hoverOutScaleTween (id : Nat) (s : Vector3 R) : Tween R :=
  { target := TweenTarget.objectScale id
    vars := { x := some s.x, y := some s.y, z := some s.z
              opacity := none, height := none
              duration := 0.3, delay := none, ease := none } }

/-- Line 183: the hover-out interpolation of the scale of shadow `index`. -/
def hoverOutShadowTween (index : Nat) (s : Vector3 R) : Tween R :=
  { target := TweenTarget.shadowScale index
    vars := { x := some (s.z * 1.4), y := some (s.y * 0.8), z := none
              opacity := none, height := none
              duration := 0.3, delay := none, ease := none } }

/-- Line 172: the test `hoveredObject !== object`. -/
def differs (hoveredObject : Option (Object3D R)) (object : Object3D R) : Bool :=
  match hoveredObject with
  | some h => h.id != object.id
  | none => true

/-- Lines 173-178: the body of the hover-in branch for the hit object. -/
def hoverIn (w : World R) (object : Object3D R) : Completion (World R) :=
  let w1 := { w with hoveredObject := some object, cursor := "pointer" }
  match object.userData.originalScale with
  | none => Completion.typeError w1
  | some s =>
      let w2 := { w1 with tweens := w1.tweens ++ [hoverInScaleTween object.id s] }
      match object.userData.shadow with
      | none => Completion.typeError w2
      | some index =>
          Completion.normal { w2 with tweens := w2.tweens ++ [hoverInShadowTween index s] }

/-- Lines 181-185: the body of the hover-out branch for the hovered object. -/
def hoverOut (w : World R) (hovered : Object3D R) : Completion (World R) :=
  match hovered.userData.originalScale with
  | none => Completion.typeError w
  | some s =>
      let w1 := { w with tweens := w.tweens ++ [hoverOutScaleTween hovered.id s] }
      match hovered.userData.shadow with
      | none => Completion.typeError w1
      | some index =>
          Completion.normal
            { w1 with
              tweens := w1.tweens ++ [hoverOutShadowTween index s]
              hoveredObject := none
              cursor := "default" }

/-- Lines 165-187: the `mousemove` listener. -/
def onMouseMove (w : World R) (event : PointerMove R) : Completion (World R) :=
  let w0 :=
    { w with
      mouse := { x := (event.clientX / w.sizes.width) * 2.0 - 1.0
                 y := (-(event.clientY / w.sizes.height)) * 2.0 + 1.0 } }
  match event.intersects with
  | first :: _ =>
      if differs w0.hoveredObject first.object then hoverIn w0 first.object
      else Completion.normal w0
  | [] =>
      match w0.hoveredObject with
      | some hovered => hoverOut w0 hovered
      | none => Completion.normal w0

/-- The state after a sequence of `mousemove` events, each listener run
starting from the state the previous one left. -/
def moves (w : World R) (events : List (PointerMove R)) : World R :=
  events.foldl (fun v event => (onMouseMove v event).state) w

/-- Line 191: the link chosen for a hovered object whose lower-cased name is `name`. -/
def socialLink (name : String) : String :=
  if includes name "github" then socialLinks.github else socialLinks.linkedin

/-- Lines 189-194: the `click` listener; `window.open(link, target)` is logged
as the pair `(link, target)`. -/
def onClick (toLowerCase : String → String) (w : World R) : World R :=
  match w.hoveredObject with
  | some hovered =>
      { w with opened := w.opened ++ [(socialLink (toLowerCase hovered.name), "_blank")] }
  | none => w

/-! ## Resize (main.js, section 9) -/

/-- Lines 205-211: the `resize` listener, in a window whose inner size is now
`innerWidth` by `innerHeight`. -/
def onResize (w : World R) (innerWidth innerHeight : R) : World R :=
  let sizes : Sizes R := { width := innerWidth, height := innerHeight }
  { w with
    sizes := sizes
    cameraAspect := sizes.width / sizes.height
    projectionUpdates := w.projectionUpdates + 1
    rendererSize := (sizes.width, sizes.height) }

/-! ## Reading the interpolation log -/

/-- The variables of the most recent `gsap.to` call aimed at `target`. -/
def latest (target : TweenTarget) (log : List (Tween R)) : Option (TweenVars R) :=
  ((log.filter fun t => t.target = target).getLast?).map fun t => t.vars

/-! ## Predicates on states -/

/-- The logs and lists of `v` continue those of `w`: each of `model`,
`clickableObjects`, `shadows`, `sceneChildren` and `tweens` of `w` is an
initial segment of the same list of `v`. -/
def World.Extends (w v : World R) : Prop :=
  w.model <+: v.model ∧ w.clickableObjects <+: v.clickableObjects ∧
  w.shadows <+: v.shadows ∧ w.sceneChildren <+: v.sceneChildren ∧ w.tweens <+: v.tweens

/-- Clickable entries and shadow decals are paired one to one: the `k`-th
clickable entry refers to shadow `k`, carries a recorded original scale, and
the scene holds the shadows `0, 1, ...` once each, in order. -/
def World.Paired (w : World R) : Prop :=
  w.clickableObjects.map (fun e => e.userData.shadow) = (List.range w.shadows.length).map some ∧
  w.sceneChildren = (List.range w.shadows.length).map SceneChild.shadow ∧
  ∀ e ∈ w.clickableObjects, ∃ s, e.userData.originalScale = some s

/-! ## A concrete scene, used to evaluate the definitions -/

/-- A poster mesh named "Github". -/
def sampleGithub : Object3D ℚ :=
  { id := 1, name := "Github", isMesh := true
    position := { x := 1, y := 2, z := 3 }, scale := { x := 2, y := 3, z := 4 }
    material := Material.gltf 1, userData := { originalScale := none, shadow := none } }

/-- A poster mesh named "Linkedin". -/
def sampleLinkedin : Object3D ℚ :=
  { id := 2, name := "Linkedin", isMesh := true
    position := { x := 1, y := 2, z := 5 }, scale := { x := 1, y := 1, z := 1 }
    material := Material.gltf 2, userData := { originalScale := none, shadow := none } }

/-- A mesh named "Glass_Window". -/
def sampleGlass : Object3D ℚ :=
  { id := 3, name := "Glass_Window", isMesh := true
    position := { x := 0, y := 0, z := 0 }, scale := { x := 1, y := 1, z := 1 }
    material := Material.gltf 3, userData := { originalScale := none, shadow := none } }

/-- A mesh named "Lamp", which no rule of the callback matches. -/
def sampleLamp : Object3D ℚ :=
  { id := 4, name := "Lamp", isMesh := true
    position := { x := 0, y := 0, z := 0 }, scale := { x := 1, y := 1, z := 1 }
    material := Material.gltf 4, userData := { originalScale := none, shadow := none } }

/-- The root group of the sample graph. -/
def sampleRoot : Object3D ℚ :=
  { id := 0, name := "Scene", isMesh := false
    position := { x := 0, y := 0, z := 0 }, scale := { x := 1, y := 1, z := 1 }
    material := Material.undefined, userData := { originalScale := none, shadow := none } }

/-- A model graph: a root group with four meshes. -/
def sampleScene : Graph (Object3D ℚ) :=
  Graph.node sampleRoot
    (Forest.cons (Graph.node sampleGithub Forest.nil)
      (Forest.cons (Graph.node sampleLinkedin Forest.nil)
        (Forest.cons (Graph.node sampleGlass Forest.nil)
          (Forest.cons (Graph.node sampleLamp Forest.nil) Forest.nil))))

/-- The "Github" mesh as the load callback leaves it. -/
def sampleGithubEntry : Object3D ℚ :=
  { sampleGithub with
    material := Material.basic 2 "textures/room/Poster.001.webp"
    scale := { x := 0.0, y := 0.0, z := 0.0 }
    userData := { originalScale := some { x := 2, y := 3, z := 4 }, shadow := some 0 } }

/-- The "Linkedin" mesh as the load callback leaves it. -/
def sampleLinkedinEntry : Object3D ℚ :=
  { sampleLinkedin with
    material := Material.basic 3 "textures/room/Poster.001.webp"
    scale := { x := 0.0, y := 0.0, z := 0.0 }
    userData := { originalScale := some { x := 1, y := 1, z := 1 }, shadow := some 1 } }

/-- The sample scene assembled in an 800 by 600 window. -/
def sampleWorld : World ℚ := loadCallback asciiToLowerCase (init 800 600) sampleScene

/-- A pointer move whose ray hits nothing. -/
def moveAway : PointerMove ℚ := { clientX := 10, clientY := 10, intersects := [] }

/-- A pointer move whose nearest hit is the given object. -/
def moveOver (object : Object3D ℚ) : PointerMove ℚ :=
  { clientX := 400, clientY := 300, intersects := [{ distance := 5, object := object }] }

/-- The scale the "Github" mesh has in the model file. -/
def githubScale : Vector3 ℚ := { x := 2, y := 3, z := 4 }

/-- The scale the "Linkedin" mesh has in the model file. -/
def linkedinScale : Vector3 ℚ := { x := 1, y := 1, z := 1 }

/-! ## Theorems -/

theorem sampleWorld_clickableObjects :
    sampleWorld.clickableObjects = [sampleGithubEntry, sampleLinkedinEntry] := by
  rfl

theorem sampleWorld_hovered : sampleWorld.hoveredObject = none := by
  rfl

/-! ### The interpolation log -/

theorem latest_append_single (target : TweenTarget) (log : List (Tween R)) (t : Tween R) :
    latest target (log ++ [t]) = if t.target = target then some t.vars else latest target log := by
  unfold latest
  by_cases h : t.target = target
  · simp [List.filter_append, h]
  · simp [List.filter_append, h]

/-! ### Resize -/

/-- C9. After the resize listener has run in a window of inner size `innerWidth`
by `innerHeight`, the stored sizes are that pair, the camera aspect is
`innerWidth / innerHeight`, the projection matrix has been updated once more,
and the renderer has been resized to exactly that pair (for every height, in
particular every non-zero one). -/
theorem onResize_sizes_aspect_renderer (w : World R) (innerWidth innerHeight : R) :
    (onResize w innerWidth innerHeight).sizes.width = innerWidth ∧
    (onResize w innerWidth innerHeight).sizes.height = innerHeight ∧
    (onResize w innerWidth innerHeight).cameraAspect = innerWidth / innerHeight ∧
    (onResize w innerWidth innerHeight).rendererSize = (innerWidth, innerHeight) ∧
    (onResize w innerWidth innerHeight).projectionUpdates = w.projectionUpdates + 1 :=
  ⟨rfl, rfl, rfl, rfl, rfl⟩

/-! ### Click -/

/-- C2. A click while an object is hovered whose lower-cased name includes
"github" calls `window.open` exactly once, with the configured GitHub link
`socialLinks.github` and the target "_blank"; a click while nothing is hovered
leaves the whole state, and so the list of opened links, as it was. -/
theorem onClick_github_or_idle (toLowerCase : String → String) (w : World R) :
    (∀ e : Object3D R, w.hoveredObject = some e →
        includes (toLowerCase e.name) "github" = true →
        (onClick toLowerCase w).opened = w.opened ++ [(socialLinks.github, "_blank")]) ∧
    (w.hoveredObject = none → onClick toLowerCase w = w) ∧
    socialLinks.github = "https://github.com/ChungYuEricson" := by
  refine ⟨?_, ?_, rfl⟩
  · intro e he hname
    simp [onClick, he, socialLink, hname]
  · intro hnone
    simp [onClick, hnone]

theorem onClick_github_or_idle_witness :
    (onClick asciiToLowerCase (moves sampleWorld [moveOver sampleGithubEntry])).opened
        = [("https://github.com/ChungYuEricson", "_blank")] ∧
    onClick asciiToLowerCase sampleWorld = sampleWorld :=
  ⟨(onClick_github_or_idle asciiToLowerCase
      (moves sampleWorld [moveOver sampleGithubEntry])).1 sampleGithubEntry rfl (by decide),
   (onClick_github_or_idle asciiToLowerCase sampleWorld).2.1 rfl⟩

/-! ### Name dispatch -/

/-- C10, amended. For a mesh name whose lower-cased form includes exactly one of
"github" and "linkedin", the three choices made from the name agree: with
"github" only, the shadow sits at `z - 2.5`, the entrance delay is `0.2` and a
click opens the GitHub link; with "linkedin" only, the shadow sits at
`z - 0.4`, the delay is `0.6` and a click opens the LinkedIn link. -/
theorem dispatch_agrees_single_kind (toLowerCase : String → String) (meshName : String)
    (position current : Vector3 R) :
    (includes (toLowerCase meshName) "github" = true →
      includes (toLowerCase meshName) "linkedin" = false →
        shadowPosition (toLowerCase meshName) position current
            = { x := position.x - 0.001, y := position.y + 0.4, z := position.z - 2.5 } ∧
        (entranceDelay (toLowerCase meshName) : R) = 0.2 ∧
        socialLink (toLowerCase meshName) = socialLinks.github) ∧
    (includes (toLowerCase meshName) "linkedin" = true →
      includes (toLowerCase meshName) "github" = false →
        shadowPosition (toLowerCase meshName) position current
            = { x := position.x - 0.001, y := position.y + 0.4, z := position.z - 0.4 } ∧
        (entranceDelay (toLowerCase meshName) : R) = 0.6 ∧
        socialLink (toLowerCase meshName) = socialLinks.linkedin) := by
  constructor
  · intro hg hl
    simp [shadowPosition, entranceDelay, socialLink, hg, hl]
  · intro hl hg
    simp [shadowPosition, entranceDelay, socialLink, hg, hl]

theorem dispatch_agrees_single_kind_witness :
    (shadowPosition (asciiToLowerCase "Github") sampleGithub.position sampleGithub.position
        = { x := (1 : ℚ) - 0.001, y := 2 + 0.4, z := 3 - 2.5 } ∧
      (entranceDelay (asciiToLowerCase "Github") : ℚ) = 0.2 ∧
      socialLink (asciiToLowerCase "Github") = socialLinks.github) ∧
    (shadowPosition (asciiToLowerCase "Linkedin") sampleLinkedin.position sampleLinkedin.position
        = { x := (1 : ℚ) - 0.001, y := 2 + 0.4, z := 5 - 0.4 } ∧
      (entranceDelay (asciiToLowerCase "Linkedin") : ℚ) = 0.6 ∧
      socialLink (asciiToLowerCase "Linkedin") = socialLinks.linkedin) :=
  ⟨(dispatch_agrees_single_kind asciiToLowerCase "Github" sampleGithub.position
      sampleGithub.position).1 (by decide) (by decide),
   (dispatch_agrees_single_kind asciiToLowerCase "Linkedin" sampleLinkedin.position
      sampleLinkedin.position).2 (by decide) (by decide)⟩

/-- C10, counterexample. The name "github_linkedin" includes both substrings;
its shadow gets the LinkedIn offset `z - 0.4`, while its entrance delay is the
GitHub one, `0.2`, and a click opens the GitHub link: the three choices agree
on neither kind. -/
theorem dispatch_disagrees_on_both :
    includes (asciiToLowerCase "github_linkedin") "github" = true ∧
    includes (asciiToLowerCase "github_linkedin") "linkedin" = true ∧
    shadowPosition (asciiToLowerCase "github_linkedin") sampleGithub.position
        sampleGithub.position = { x := (1 : ℚ) - 0.001, y := 2 + 0.4, z := 3 - 0.4 } ∧
    (entranceDelay (asciiToLowerCase "github_linkedin") : ℚ) = 0.2 ∧
    socialLink (asciiToLowerCase "github_linkedin") = socialLinks.github ∧
    ¬ ((shadowPosition (asciiToLowerCase "github_linkedin") sampleGithub.position
            sampleGithub.position
          = { x := (1 : ℚ) - 0.001, y := 2 + 0.4, z := 3 - 2.5 } ∧
        (entranceDelay (asciiToLowerCase "github_linkedin") : ℚ) = 0.2 ∧
        socialLink (asciiToLowerCase "github_linkedin") = socialLinks.github) ∨
       (shadowPosition (asciiToLowerCase "github_linkedin") sampleGithub.position
            sampleGithub.position
          = { x := (1 : ℚ) - 0.001, y := 2 + 0.4, z := 3 - 0.4 } ∧
        (entranceDelay (asciiToLowerCase "github_linkedin") : ℚ) = 0.6 ∧
        socialLink (asciiToLowerCase "github_linkedin") = socialLinks.linkedin)) := by
  have hg : includes (asciiToLowerCase "github_linkedin") "github" = true := by decide
  have hl : includes (asciiToLowerCase "github_linkedin") "linkedin" = true := by decide
  refine ⟨hg, hl, ?_, ?_, ?_, ?_⟩
  · simp [shadowPosition, hl, sampleGithub]
  · simp [entranceDelay, hg]
  · simp [socialLink, hg]
  · rintro (⟨hp, -, -⟩ | ⟨-, hd, -⟩)
    · simp only [shadowPosition, hl, if_true, sampleGithub, Vector3.mk.injEq] at hp
      norm_num at hp
    · simp only [entranceDelay, hg, if_true] at hd
      norm_num at hd

/-! ### Pointer moves -/

theorem onMouseMove_idle_no_hit (w : World R) (m : PointerMove R)
    (hidle : w.hoveredObject = none) (hm : m.intersects = []) :
    ∃ w1, onMouseMove w m = Completion.normal w1 ∧ w1.tweens = w.tweens ∧
      w1.hoveredObject = none ∧ w1.cursor = w.cursor ∧ w1.sizes = w.sizes := by
  simp [onMouseMove, hidle, hm]

theorem onMouseMove_same_hit (w : World R) (m : PointerMove R) (e : Object3D R)
    (first : Intersection R) (rest : List (Intersection R))
    (hhov : w.hoveredObject = some e) (hm : m.intersects = first :: rest)
    (hsame : first.object.id = e.id) :
    ∃ w1, onMouseMove w m = Completion.normal w1 ∧ w1.tweens = w.tweens ∧
      w1.hoveredObject = some e ∧ w1.cursor = w.cursor ∧ w1.sizes = w.sizes := by
  simp [onMouseMove, hhov, hm, differs, hsame]

theorem onMouseMove_hover_in (w : World R) (m : PointerMove R) (e : Object3D R)
    (s : Vector3 R) (index : Nat) (first : Intersection R) (rest : List (Intersection R))
    (hm : m.intersects = first :: rest) (he : first.object = e)
    (hdiff : differs w.hoveredObject e = true)
    (hs : e.userData.originalScale = some s) (hsh : e.userData.shadow = some index) :
    ∃ w1, onMouseMove w m = Completion.normal w1 ∧
      w1.tweens = w.tweens ++ [hoverInScaleTween e.id s, hoverInShadowTween index s] ∧
      w1.hoveredObject = some e ∧ w1.cursor = "pointer" := by
  subst he
  simp [onMouseMove, hm, hdiff, hoverIn, hs, hsh]

theorem onMouseMove_hover_out (w : World R) (m : PointerMove R) (e : Object3D R)
    (s : Vector3 R) (index : Nat)
    (hhov : w.hoveredObject = some e) (hm : m.intersects = [])
    (hs : e.userData.originalScale = some s) (hsh : e.userData.shadow = some index) :
    ∃ w1, onMouseMove w m = Completion.normal w1 ∧
      w1.tweens = w.tweens ++ [hoverOutScaleTween e.id s, hoverOutShadowTween index s] ∧
      w1.hoveredObject = none ∧ w1.cursor = "default" := by
  simp [onMouseMove, hm, hhov, hoverOut, hs, hsh]

/-- C6. A pointer move that does not change the hover state issues no
interpolation and leaves the hovered reference (and the cursor) unchanged:
(1) nothing is hovered and the ray hits nothing; (2) `e` is hovered and the
nearest hit is `e` again.  (3) Hence after any sequence of such moves the log
of interpolations and the hovered reference are what they were before it. -/
theorem onMouseMove_idempotent (w : World R) :
    (∀ m : PointerMove R, w.hoveredObject = none → m.intersects = [] →
      ∃ w1, onMouseMove w m = Completion.normal w1 ∧ w1.tweens = w.tweens ∧
        w1.hoveredObject = w.hoveredObject ∧ w1.cursor = w.cursor) ∧
    (∀ (m : PointerMove R) (e : Object3D R) (first : Intersection R)
        (rest : List (Intersection R)),
      w.hoveredObject = some e → m.intersects = first :: rest → first.object.id = e.id →
      ∃ w1, onMouseMove w m = Completion.normal w1 ∧ w1.tweens = w.tweens ∧
        w1.hoveredObject = w.hoveredObject ∧ w1.cursor = w.cursor) ∧
    (∀ ms : List (PointerMove R),
      (∀ m ∈ ms, (w.hoveredObject = none ∧ m.intersects = []) ∨
        (∃ e first rest, w.hoveredObject = some e ∧ m.intersects = first :: rest ∧
          first.object.id = e.id)) →
      (moves w ms).tweens = w.tweens ∧ (moves w ms).hoveredObject = w.hoveredObject ∧
        (moves w ms).cursor = w.cursor) := by
  refine ⟨?_, ?_, ?_⟩
  · intro m hidle hm
    obtain ⟨w1, h1, ht, hh, hc, -⟩ := onMouseMove_idle_no_hit w m hidle hm
    exact ⟨w1, h1, ht, by rw [hh, hidle], hc⟩
  · intro m e first rest hhov hm hsame
    obtain ⟨w1, h1, ht, hh, hc, -⟩ := onMouseMove_same_hit w m e first rest hhov hm hsame
    exact ⟨w1, h1, ht, by rw [hh, hhov], hc⟩
  · intro ms
    induction ms generalizing w with
    | nil => intro _; exact ⟨rfl, rfl, rfl⟩
    | cons m ms ih =>
      intro hall
      have hstep : ∃ w1, onMouseMove w m = Completion.normal w1 ∧ w1.tweens = w.tweens ∧
          w1.hoveredObject = w.hoveredObject ∧ w1.cursor = w.cursor := by
        rcases hall m (List.mem_cons_self m ms) with ⟨hidle, hm⟩ | ⟨e, first, rest, hhov, hm, hsame⟩
        · obtain ⟨w1, h1, ht, hh, hc, -⟩ := onMouseMove_idle_no_hit w m hidle hm
          exact ⟨w1, h1, ht, by rw [hh, hidle], hc⟩
        · obtain ⟨w1, h1, ht, hh, hc, -⟩ := onMouseMove_same_hit w m e first rest hhov hm hsame
          exact ⟨w1, h1, ht, by rw [hh, hhov], hc⟩
      obtain ⟨w1, h1, ht, hh, hc⟩ := hstep
      have hrest : ∀ m' ∈ ms, (w1.hoveredObject = none ∧ m'.intersects = []) ∨
          (∃ e first rest, w1.hoveredObject = some e ∧ m'.intersects = first :: rest ∧
            first.object.id = e.id) := by
        intro m' hm'
        rw [hh]
        exact hall m' (List.mem_cons_of_mem m hm')
      have hfold : moves w (m :: ms) = moves w1 ms := by
        simp [moves, h1, Completion.state]
      rw [hfold]
      obtain ⟨a, b, c⟩ := ih w1 hrest
      exact ⟨a.trans ht, b.trans hh, c.trans hc⟩

theorem onMouseMove_idempotent_witness :
    (∃ w1, onMouseMove sampleWorld moveAway = Completion.normal w1 ∧
        w1.tweens = sampleWorld.tweens ∧ w1.hoveredObject = sampleWorld.hoveredObject ∧
        w1.cursor = sampleWorld.cursor) ∧
    (∃ w1, onMouseMove (moves sampleWorld [moveOver sampleGithubEntry])
          (moveOver sampleGithubEntry) = Completion.normal w1 ∧
        w1.tweens = (moves sampleWorld [moveOver sampleGithubEntry]).tweens ∧
        w1.hoveredObject = (moves sampleWorld [moveOver sampleGithubEntry]).hoveredObject ∧
        w1.cursor = (moves sampleWorld [moveOver sampleGithubEntry]).cursor) ∧
    ((moves sampleWorld [moveAway, moveAway, moveAway]).tweens = sampleWorld.tweens ∧
      (moves sampleWorld [moveAway, moveAway, moveAway]).hoveredObject
        = sampleWorld.hoveredObject ∧
      (moves sampleWorld [moveAway, moveAway, moveAway]).cursor = sampleWorld.cursor) :=
  ⟨(onMouseMove_idempotent sampleWorld).1 moveAway rfl rfl,
   (onMouseMove_idempotent (moves sampleWorld [moveOver sampleGithubEntry])).2.1
      (moveOver sampleGithubEntry) sampleGithubEntry
      { distance := 5, object := sampleGithubEntry } [] rfl rfl rfl,
   (onMouseMove_idempotent sampleWorld).2.2 [moveAway, moveAway, moveAway]
      (by
        intro m hm
        simp only [List.mem_cons, List.mem_singleton, List.not_mem_nil, or_false, or_self] at hm
        subst hm
        exact Or.inl ⟨rfl, rfl⟩)⟩

/-- C4. Starting with nothing hovered, three consecutive pointer moves (the ray
hits nothing; the nearest hit is the clickable entry `e`; the ray hits nothing)
all complete normally and leave nothing hovered; the most recent interpolation
of the scale of `e` then targets the original scale recorded on `e`, and the
most recent interpolation of its shadow targets the resting footprint
(`z * 1.4`, `y * 0.8` of that scale).  A clickable entry is an object carrying
the recorded original scale `s` and the shadow `index`, as scene assembly
leaves every registered mesh. -/
theorem hover_round_trip (w : World R) (e : Object3D R) (s : Vector3 R) (index : Nat)
    (m1 m2 m3 : PointerMove R) (d : R) (rest : List (Intersection R))
    (hidle : w.hoveredObject = none)
    (hs : e.userData.originalScale = some s) (hsh : e.userData.shadow = some index)
    (h1 : m1.intersects = []) (h2 : m2.intersects = { distance := d, object := e } :: rest)
    (h3 : m3.intersects = []) :
    ∃ w1 w2 w3 : World R,
      onMouseMove w m1 = Completion.normal w1 ∧
      onMouseMove w1 m2 = Completion.normal w2 ∧
      onMouseMove w2 m3 = Completion.normal w3 ∧
      moves w [m1, m2, m3] = w3 ∧
      w2.hoveredObject = some e ∧
      w3.hoveredObject = none ∧
      (∃ v, latest (TweenTarget.objectScale e.id) w3.tweens = some v ∧
        v.x = some s.x ∧ v.y = some s.y ∧ v.z = some s.z) ∧
      (∃ v, latest (TweenTarget.shadowScale index) w3.tweens = some v ∧
        v.x = some (s.z * 1.4) ∧ v.y = some (s.y * 0.8)) := by
  obtain ⟨w1, e1, -, hh1, -, -⟩ := onMouseMove_idle_no_hit w m1 hidle h1
  obtain ⟨w2, e2, -, hh2, -⟩ :=
    onMouseMove_hover_in w1 m2 e s index _ rest h2 rfl (by simp [differs, hh1]) hs hsh
  obtain ⟨w3, e3, ht3, hh3, -⟩ := onMouseMove_hover_out w2 m3 e s index hh2 h3 hs hsh
  refine ⟨w1, w2, w3, e1, e2, e3, ?_, hh2, hh3, ?_, ?_⟩
  · simp [moves, e1, e2, e3, Completion.state]
  · refine ⟨(hoverOutScaleTween e.id s).vars, ?_, rfl, rfl, rfl⟩
    have : w3.tweens = (w2.tweens ++ [hoverOutScaleTween e.id s]) ++ [hoverOutShadowTween index s] := by
      rw [ht3]; simp
    rw [this, latest_append_single, latest_append_single]
    simp [hoverOutShadowTween, hoverOutScaleTween]
  · refine ⟨(hoverOutShadowTween index s).vars, ?_, rfl, rfl⟩
    have : w3.tweens = (w2.tweens ++ [hoverOutScaleTween e.id s]) ++ [hoverOutShadowTween index s] := by
      rw [ht3]; simp
    rw [this, latest_append_single]
    simp [hoverOutShadowTween]

theorem hover_round_trip_witness :
    ∃ w1 w2 w3 : World ℚ,
      onMouseMove sampleWorld moveAway = Completion.normal w1 ∧
      onMouseMove w1 (moveOver sampleGithubEntry) = Completion.normal w2 ∧
      onMouseMove w2 moveAway = Completion.normal w3 ∧
      moves sampleWorld [moveAway, moveOver sampleGithubEntry, moveAway] = w3 ∧
      w2.hoveredObject = some sampleGithubEntry ∧
      w3.hoveredObject = none ∧
      (∃ v, latest (TweenTarget.objectScale sampleGithubEntry.id) w3.tweens = some v ∧
        v.x = some 2 ∧ v.y = some 3 ∧ v.z = some 4) ∧
      (∃ v, latest (TweenTarget.shadowScale 0) w3.tweens = some v ∧
        v.x = some ((4 : ℚ) * 1.4) ∧ v.y = some ((3 : ℚ) * 0.8)) :=
  hover_round_trip sampleWorld sampleGithubEntry { x := 2, y := 3, z := 4 } 0
    moveAway (moveOver sampleGithubEntry) moveAway 5 [] rfl rfl rfl rfl rfl rfl

/-! ### Moving from one entry straight to another -/

theorem sampleWorld_tweens :
    sampleWorld.tweens =
      [ entranceScaleTween 1 githubScale (0.2 : ℚ),
        entranceShadowTween 0 githubScale (0.2 : ℚ),
        entranceOpacityTween 0 (0.2 : ℚ),
        entranceScaleTween 2 linkedinScale (0.6 : ℚ),
        entranceShadowTween 1 linkedinScale (0.6 : ℚ),
        entranceOpacityTween 1 (0.6 : ℚ) ] := by
  rfl

theorem hovering_github_tweens :
    (moves sampleWorld [moveOver sampleGithubEntry]).tweens =
      sampleWorld.tweens ++
        [ hoverInScaleTween 1 githubScale,
          hoverInShadowTween 0 githubScale ] := by
  rfl

/-- C5, evaluated. With the "Github" entry hovered, one pointer move whose
nearest hit is the "Linkedin" entry completes normally with the "Linkedin"
entry hovered and issues exactly two interpolations, the hover-in pair of
"Linkedin"; no hover-out interpolation is issued for "Github", whose most
recent scale target stays `1.05` times its original scale `(2, 3, 4)` and is
not that original scale. -/
theorem switch_issues_no_hover_out :
    (moves sampleWorld [moveOver sampleGithubEntry]).hoveredObject = some sampleGithubEntry ∧
    ∃ w1 : World ℚ,
      onMouseMove (moves sampleWorld [moveOver sampleGithubEntry]) (moveOver sampleLinkedinEntry)
        = Completion.normal w1 ∧
      w1.hoveredObject = some sampleLinkedinEntry ∧
      w1.tweens = (moves sampleWorld [moveOver sampleGithubEntry]).tweens ++
        [ hoverInScaleTween 2 linkedinScale,
          hoverInShadowTween 1 linkedinScale ] ∧
      (∃ v, latest (TweenTarget.objectScale 1) w1.tweens = some v ∧
        v.x = some ((2 : ℚ) * 1.05) ∧ v.y = some ((3 : ℚ) * 1.05) ∧ v.z = some ((4 : ℚ) * 1.05) ∧
        v.x ≠ some 2 ∧ v.y ≠ some 3 ∧ v.z ≠ some 4) := by
  refine ⟨rfl, ?_⟩
  obtain ⟨w1, e1, ht, hh, -⟩ :=
    onMouseMove_hover_in (moves sampleWorld [moveOver sampleGithubEntry])
      (moveOver sampleLinkedinEntry) sampleLinkedinEntry linkedinScale 1
      { distance := 5, object := sampleLinkedinEntry } [] rfl rfl rfl rfl rfl
  refine ⟨w1, e1, hh, ht, (hoverInScaleTween 1 githubScale).vars, ?_,
    rfl, rfl, rfl, ?_, ?_, ?_⟩
  · rw [ht, hovering_github_tweens, sampleWorld_tweens]
    simp [latest, List.filter, hoverInScaleTween, hoverInShadowTween, entranceScaleTween,
      entranceShadowTween, entranceOpacityTween, sampleLinkedinEntry, sampleLinkedin]
  · simp only [hoverInScaleTween, githubScale, ne_eq, Option.some.injEq]; norm_num
  · simp only [hoverInScaleTween, githubScale, ne_eq, Option.some.injEq]; norm_num
  · simp only [hoverInScaleTween, githubScale, ne_eq, Option.some.injEq]; norm_num

/-- C8, evaluated. After scene assembly and two pointer moves (nearest hit
"Github", then nearest hit "Linkedin") the hovered entry is "Linkedin"; the
"Github" entry is a clickable entry that is not hovered, and the most recent
target of its shadow (shadow 0) is the enlarged footprint `(4 * 1.45, 3 * 0.85)`
and not the resting footprint `(4 * 1.4, 3 * 0.8)` of its original scale. -/
theorem unhovered_entry_keeps_enlarged_shadow :
    (moves sampleWorld [moveOver sampleGithubEntry, moveOver sampleLinkedinEntry]).hoveredObject
      = some sampleLinkedinEntry ∧
    sampleGithubEntry ∈
      (moves sampleWorld
        [moveOver sampleGithubEntry, moveOver sampleLinkedinEntry]).clickableObjects ∧
    sampleGithubEntry.id ≠ sampleLinkedinEntry.id ∧
    sampleGithubEntry.userData.shadow = some 0 ∧
    ∃ v, latest (TweenTarget.shadowScale 0)
        (moves sampleWorld [moveOver sampleGithubEntry, moveOver sampleLinkedinEntry]).tweens
          = some v ∧
      v.x = some ((4 : ℚ) * 1.45) ∧ v.y = some ((3 : ℚ) * 0.85) ∧
      v.x ≠ some ((4 : ℚ) * 1.4) ∧ v.y ≠ some ((3 : ℚ) * 0.8) := by
  have ht : (moves sampleWorld
      [moveOver sampleGithubEntry, moveOver sampleLinkedinEntry]).tweens =
      sampleWorld.tweens ++
        [ hoverInScaleTween 1 githubScale,
          hoverInShadowTween 0 githubScale,
          hoverInScaleTween 2 linkedinScale,
          hoverInShadowTween 1 linkedinScale ] := by
    rfl
  have hc : (moves sampleWorld
      [moveOver sampleGithubEntry, moveOver sampleLinkedinEntry]).clickableObjects =
      [sampleGithubEntry, sampleLinkedinEntry] := by
    rfl
  refine ⟨rfl, ?_, by decide, rfl, (hoverInShadowTween 0 githubScale).vars, ?_,
    rfl, rfl, ?_, ?_⟩
  · rw [hc]; exact List.mem_cons_self _ _
  · rw [ht, sampleWorld_tweens]
    simp [latest, List.filter, hoverInScaleTween, hoverInShadowTween, entranceScaleTween,
      entranceShadowTween, entranceOpacityTween]
  · simp only [hoverInShadowTween, githubScale, ne_eq, Option.some.injEq]; norm_num
  · simp only [hoverInShadowTween, githubScale, ne_eq, Option.some.injEq]; norm_num

/-! ### Scene assembly: one node -/

theorem assignMaterial_fields (toLowerCase : String → String) (child : Object3D R) :
    (assignMaterial toLowerCase child).id = child.id ∧
    (assignMaterial toLowerCase child).name = child.name ∧
    (assignMaterial toLowerCase child).isMesh = child.isMesh ∧
    (assignMaterial toLowerCase child).position = child.position ∧
    (assignMaterial toLowerCase child).scale = child.scale := by
  unfold assignMaterial
  dsimp only
  split <;> (repeat' split) <;> exact ⟨rfl, rfl, rfl, rfl, rfl⟩

theorem World.Extends.refl (w : World R) : w.Extends w :=
  ⟨List.prefix_refl _, List.prefix_refl _, List.prefix_refl _, List.prefix_refl _,
    List.prefix_refl _⟩

theorem World.Extends.trans {u v w : World R} (h1 : u.Extends v) (h2 : v.Extends w) :
    u.Extends w :=
  ⟨h1.1.trans h2.1, h1.2.1.trans h2.2.1, h1.2.2.1.trans h2.2.2.1,
    h1.2.2.2.1.trans h2.2.2.2.1, h1.2.2.2.2.trans h2.2.2.2.2⟩

theorem registerClickable_extends (toLowerCase : String → String) (w : World R)
    (child : Object3D R) :
    w.Extends (registerClickable toLowerCase w child).1 ∧
    (registerClickable toLowerCase w child).1.model = w.model ∧
    (registerClickable toLowerCase w child).2.id = child.id ∧
    (registerClickable toLowerCase w child).2.name = child.name ∧
    (registerClickable toLowerCase w child).2.isMesh = child.isMesh ∧
    (registerClickable toLowerCase w child).2.material = child.material := by
  by_cases h : (includes (toLowerCase child.name) "github" ||
      includes (toLowerCase child.name) "linkedin") = true
  · simp only [registerClickable, h, if_true, World.Extends]
    exact ⟨⟨List.prefix_refl _, List.prefix_append _ _, List.prefix_append _ _,
      List.prefix_append _ _, List.prefix_append _ _⟩, trivial, trivial, trivial, trivial, trivial⟩
  · have h2 : (includes (toLowerCase child.name) "github" ||
        includes (toLowerCase child.name) "linkedin") = false := by
      simpa using h
    simp only [registerClickable, h2, World.Extends]
    exact ⟨⟨List.prefix_refl _, List.prefix_refl _, List.prefix_refl _, List.prefix_refl _,
      List.prefix_refl _⟩, rfl, rfl, rfl, rfl, rfl⟩

theorem onChild_model (toLowerCase : String → String) (w : World R) (child : Object3D R) :
    w.Extends (onChild toLowerCase w child) ∧
    ∃ c, (onChild toLowerCase w child).model = w.model ++ [c] ∧ c.id = child.id ∧
      c.name = child.name ∧ c.isMesh = child.isMesh ∧
      c.material =
        if child.isMesh then (assignMaterial toLowerCase child).material else child.material := by
  by_cases hmesh : child.isMesh = true
  · obtain ⟨hext, hmodel, hid, hname, hm, hmat⟩ :=
      registerClickable_extends toLowerCase w (assignMaterial toLowerCase child)
    obtain ⟨aid, aname, amesh, -, -⟩ := assignMaterial_fields toLowerCase child
    have hon : onChild toLowerCase w child =
        { (registerClickable toLowerCase w (assignMaterial toLowerCase child)).1 with
          model := (registerClickable toLowerCase w (assignMaterial toLowerCase child)).1.model ++
            [(registerClickable toLowerCase w (assignMaterial toLowerCase child)).2] } := by
      simp only [onChild, hmesh, if_true]
    rw [hon]
    refine ⟨⟨?_, hext.2.1, hext.2.2.1, hext.2.2.2.1, hext.2.2.2.2⟩,
      (registerClickable toLowerCase w (assignMaterial toLowerCase child)).2, ?_, ?_, ?_, ?_, ?_⟩
    · show w.model <+: _ ++ _
      rw [hmodel]; exact List.prefix_append _ _
    · show _ ++ _ = _
      rw [hmodel]
    · rw [hid, aid]
    · rw [hname, aname]
    · rw [hm, amesh]
    · rw [hmat, if_pos hmesh]
  · have hon : onChild toLowerCase w child = { w with model := w.model ++ [child] } := by
      simp only [onChild, hmesh, if_false]
      rfl
    rw [hon]
    exact ⟨⟨List.prefix_append _ _, List.prefix_refl _, List.prefix_refl _, List.prefix_refl _,
      List.prefix_refl _⟩, child, rfl, rfl, rfl, rfl, by rw [if_neg hmesh]⟩

theorem onChild_clickable (toLowerCase : String → String) (w : World R) (child : Object3D R)
    (hmesh : child.isMesh = true)
    (hname : includes (toLowerCase child.name) "github" = true ∨
      includes (toLowerCase child.name) "linkedin" = true) :
    ∃ (entry : Object3D R) (shadow : ShadowMesh R),
      entry.id = child.id ∧ entry.name = child.name ∧
      entry.scale = { x := 0.0, y := 0.0, z := 0.0 } ∧
      entry.userData.originalScale = some child.scale ∧
      entry.userData.shadow = some w.shadows.length ∧
      shadow.position = shadowPosition (toLowerCase child.name) child.position
        { x := 0.0, y := 0.0, z := 0.0 } ∧
      (onChild toLowerCase w child).model = w.model ++ [entry] ∧
      (onChild toLowerCase w child).clickableObjects = w.clickableObjects ++ [entry] ∧
      (onChild toLowerCase w child).shadows = w.shadows ++ [shadow] ∧
      (onChild toLowerCase w child).sceneChildren
        = w.sceneChildren ++ [SceneChild.shadow w.shadows.length] ∧
      (onChild toLowerCase w child).tweens = w.tweens ++
        [ entranceScaleTween child.id child.scale (entranceDelay (toLowerCase child.name)),
          entranceShadowTween w.shadows.length child.scale
            (entranceDelay (toLowerCase child.name)),
          entranceOpacityTween w.shadows.length (entranceDelay (toLowerCase child.name)) ] := by
  obtain ⟨aid, aname, -, apos, ascale⟩ := assignMaterial_fields toLowerCase child
  have hcond : (includes (toLowerCase child.name) "github" ||
      includes (toLowerCase child.name) "linkedin") = true := by
    rcases hname with h | h <;> simp [h]
  simp only [onChild, hmesh, if_true, registerClickable, aid, aname, apos, ascale, hcond,
    createShadow]
  refine ⟨{ assignMaterial toLowerCase child with
            userData := { originalScale := some child.scale, shadow := some w.shadows.length }
            scale := { x := 0.0, y := 0.0, z := 0.0 } },
    { position := shadowPosition (toLowerCase child.name) child.position
        { x := 0.0, y := 0.0, z := 0.0 }
      scale := { x := 0.0, y := 0.0, z := 0.0 }, opacity := 0.0 },
    ?_, ?_, ?_, ?_, ?_, ?_, ?_, ?_, ?_, ?_, ?_⟩ <;>
    first
      | rfl
      | trivial
      | exact aid
      | exact aname
      | simp only [aid, aname, apos]

/-! ### Scene assembly: the whole traversal -/

theorem getElem?_of_prefix {α : Type} {l l' : List α} (h : l <+: l') {i : Nat} {a : α}
    (hi : l[i]? = some a) : l'[i]? = some a := by
  obtain ⟨t, rfl⟩ := h
  have hlt : i < l.length := by
    by_contra hge
    rw [List.getElem?_eq_none (Nat.le_of_not_lt hge)] at hi
    exact Option.noConfusion hi
  rw [List.getElem?_append_left hlt]
  exact hi

theorem visitAll_cons (toLowerCase : String → String) (w : World R) (a : Object3D R)
    (l : List (Object3D R)) :
    visitAll toLowerCase w (a :: l) = visitAll toLowerCase (onChild toLowerCase w a) l :=
  rfl

theorem visitAll_extends (toLowerCase : String → String) (w : World R)
    (l : List (Object3D R)) : w.Extends (visitAll toLowerCase w l) := by
  induction l generalizing w with
  | nil => exact World.Extends.refl w
  | cons a l ih =>
    rw [visitAll_cons]
    exact (onChild_model toLowerCase w a).1.trans (ih _)

theorem onChild_not_clickable (toLowerCase : String → String) (w : World R)
    (child : Object3D R)
    (h : child.isMesh = false ∨
      (includes (toLowerCase child.name) "github" = false ∧
        includes (toLowerCase child.name) "linkedin" = false)) :
    (onChild toLowerCase w child).clickableObjects = w.clickableObjects ∧
    (onChild toLowerCase w child).shadows = w.shadows ∧
    (onChild toLowerCase w child).sceneChildren = w.sceneChildren ∧
    (onChild toLowerCase w child).tweens = w.tweens := by
  by_cases hmesh : child.isMesh = true
  · rcases h with h | ⟨hg, hl⟩
    · rw [h] at hmesh; exact Bool.noConfusion hmesh
    · obtain ⟨-, aname, -, -, -⟩ := assignMaterial_fields toLowerCase child
      simp only [onChild, hmesh, if_true, registerClickable, aname, hg, hl, Bool.or_self,
        Bool.false_eq_true, if_false]
      exact ⟨trivial, trivial, trivial, trivial⟩
  · have hon : onChild toLowerCase w child = { w with model := w.model ++ [child] } := by
      simp only [onChild, hmesh, if_false]
      rfl
    rw [hon]
    exact ⟨rfl, rfl, rfl, rfl⟩

theorem onChild_paired (toLowerCase : String → String) (w : World R) (child : Object3D R)
    (hp : w.Paired) : (onChild toLowerCase w child).Paired := by
  by_cases hc : child.isMesh = true ∧
      (includes (toLowerCase child.name) "github" = true ∨
        includes (toLowerCase child.name) "linkedin" = true)
  · obtain ⟨entry, shadow, -, -, -, hos, hsh, -, -, hcl, hshs, hsc, -⟩ :=
      onChild_clickable toLowerCase w child hc.1 hc.2
    obtain ⟨p1, p2, p3⟩ := hp
    refine ⟨?_, ?_, ?_⟩
    · rw [hcl, hshs, List.map_append, p1]
      simp [List.range_succ, hsh]
    · rw [hsc, hshs, p2]
      simp [List.range_succ]
    · intro e he
      rw [hcl, List.mem_append, List.mem_singleton] at he
      rcases he with he | rfl
      · exact p3 e he
      · exact ⟨_, hos⟩
  · have hn : child.isMesh = false ∨
        (includes (toLowerCase child.name) "github" = false ∧
          includes (toLowerCase child.name) "linkedin" = false) := by
      by_cases hmesh : child.isMesh = true
      · right
        constructor
        · by_contra hg
          exact hc ⟨hmesh, Or.inl (by simpa using hg)⟩
        · by_contra hl
          exact hc ⟨hmesh, Or.inr (by simpa using hl)⟩
      · left; simpa using hmesh
    obtain ⟨hcl, hshs, hsc, -⟩ := onChild_not_clickable toLowerCase w child hn
    obtain ⟨p1, p2, p3⟩ := hp
    refine ⟨?_, ?_, ?_⟩
    · rw [hcl, hshs]; exact p1
    · rw [hsc, hshs]; exact p2
    · intro e he
      rw [hcl] at he
      exact p3 e he

theorem visitAll_paired (toLowerCase : String → String) (w : World R)
    (l : List (Object3D R)) (hp : w.Paired) : (visitAll toLowerCase w l).Paired := by
  induction l generalizing w with
  | nil => exact hp
  | cons a l ih =>
    rw [visitAll_cons]
    exact ih _ (onChild_paired toLowerCase w a hp)

theorem visitAll_at (toLowerCase : String → String) (w : World R) (nodes : List (Object3D R))
    (i : Nat) (child : Object3D R) (hi : nodes[i]? = some child) :
    ∃ w1 : World R, w1.model.length = w.model.length + i ∧ w.Extends w1 ∧
      (w.Paired → w1.Paired) ∧
      (onChild toLowerCase w1 child).Extends (visitAll toLowerCase w nodes) := by
  induction nodes generalizing w i with
  | nil => simp at hi
  | cons a l ih =>
    cases i with
    | zero =>
      simp only [List.getElem?_cons_zero, Option.some.injEq] at hi
      subst hi
      exact ⟨w, rfl, World.Extends.refl w, id, visitAll_extends toLowerCase _ l⟩
    | succ j =>
      simp only [List.getElem?_cons_succ] at hi
      obtain ⟨w1, hlen, hext, hpair, hfin⟩ := ih (onChild toLowerCase w a) j hi
      obtain ⟨hstep, c, hmodel, -⟩ := onChild_model toLowerCase w a
      refine ⟨w1, ?_, hstep.trans hext, fun hp => hpair (onChild_paired toLowerCase w a hp), ?_⟩
      · rw [hlen, hmodel, List.length_append, List.length_singleton]
        omega
      · rw [visitAll_cons]
        exact hfin

theorem visitAll_material_at (toLowerCase : String → String) (w : World R)
    (nodes : List (Object3D R)) (i : Nat) (child : Object3D R) (hi : nodes[i]? = some child) :
    ∃ c, (visitAll toLowerCase w nodes).model[w.model.length + i]? = some c ∧
      c.id = child.id ∧ c.name = child.name ∧ c.isMesh = child.isMesh ∧
      c.material =
        if child.isMesh then (assignMaterial toLowerCase child).material else child.material := by
  obtain ⟨w1, hlen, -, -, hfin⟩ := visitAll_at toLowerCase w nodes i child hi
  obtain ⟨-, c, hmodel, hid, hname, hmesh, hmat⟩ := onChild_model toLowerCase w1 child
  refine ⟨c, ?_, hid, hname, hmesh, hmat⟩
  apply getElem?_of_prefix hfin.1
  rw [hmodel, ← hlen]
  simp

theorem loadCallback_fields (toLowerCase : String → String) (w : World R)
    (gltfScene : Graph (Object3D R)) :
    (loadCallback toLowerCase w gltfScene).model
      = (visitAll toLowerCase w gltfScene.traverse).model ∧
    (loadCallback toLowerCase w gltfScene).clickableObjects
      = (visitAll toLowerCase w gltfScene.traverse).clickableObjects ∧
    (loadCallback toLowerCase w gltfScene).shadows
      = (visitAll toLowerCase w gltfScene.traverse).shadows ∧
    (loadCallback toLowerCase w gltfScene).tweens
      = (visitAll toLowerCase w gltfScene.traverse).tweens ∧
    (loadCallback toLowerCase w gltfScene).sceneChildren
      = (visitAll toLowerCase w gltfScene.traverse).sceneChildren ++ [SceneChild.gltfScene] :=
  ⟨rfl, rfl, rfl, rfl, rfl⟩

/-! ### Materials -/

theorem find?_key_of_injective (toLowerCase : String → String) (key name : String)
    (hname : toLowerCase name = toLowerCase key) (l : List String) (hkey : key ∈ l)
    (hinj : ∀ k ∈ l, ∀ k' ∈ l, toLowerCase k = toLowerCase k' → k = k') :
    l.find? (fun k => toLowerCase k == toLowerCase name) = some key := by
  induction l with
  | nil => cases hkey
  | cons a l ih =>
    by_cases ha : toLowerCase a = toLowerCase name
    · have : a = key :=
        hinj a (List.mem_cons_self a l) key hkey (ha.trans hname)
      have hbeq : (toLowerCase a == toLowerCase name) = true := by
        simpa using ha
      rw [List.find?_cons, hbeq, this]
    · have hne : key ≠ a := by
        rintro rfl
        exact ha hname.symm
      have hmem : key ∈ l := by
        rcases List.mem_cons.mp hkey with h | h
        · exact absurd h hne
        · exact h
      have hbeq : (toLowerCase a == toLowerCase name) = false := by
        simpa using ha
      rw [List.find?_cons, hbeq]
      exact ih hmem fun k hk k' hk' =>
        hinj k (List.mem_cons_of_mem a hk) k' (List.mem_cons_of_mem a hk')

theorem loadedTextures_keys :
    Object.keys loadedTextures =
      ["backdrop", "room", "github", "linkedin", "chair", "table", "headset", "deskobjects"] := by
  rfl

theorem loadedTextures_lookup (key : String) (hkey : key ∈ Object.keys loadedTextures) :
    key ≠ "" ∧ ∃ slot path, (key, path) ∈ textureMap ∧
      loadedTextures.lookup key = some (Material.basic slot path) := by
  rw [loadedTextures_keys] at hkey
  simp only [List.mem_cons, List.mem_singleton, List.not_mem_nil, or_false] at hkey
  rcases hkey with h | h | h | h | h | h | h | h <;> subst h
  · exact ⟨by decide, 0, "textures/room/backdrop.webp", by decide, by decide⟩
  · exact ⟨by decide, 1, "textures/room/background.001.webp", by decide, by decide⟩
  · exact ⟨by decide, 2, "textures/room/Poster.001.webp", by decide, by decide⟩
  · exact ⟨by decide, 3, "textures/room/Poster.001.webp", by decide, by decide⟩
  · exact ⟨by decide, 4, "textures/room/chair2.webp", by decide, by decide⟩
  · exact ⟨by decide, 5, "textures/room/drawerlamptable.webp", by decide, by decide⟩
  · exact ⟨by decide, 6, "textures/room/headset.webp", by decide, by decide⟩
  · exact ⟨by decide, 7, "textures/room/deskobjects.webp", by decide, by decide⟩

theorem assignMaterial_of_key (toLowerCase : String → String)
    (hinj : ∀ k ∈ Object.keys (loadedTextures), ∀ k' ∈ Object.keys (loadedTextures),
      toLowerCase k = toLowerCase k' → k = k')
    (key : String) (hkey : key ∈ Object.keys loadedTextures) (m : Material)
    (hm : loadedTextures.lookup key = some m) (child : Object3D R)
    (hname : toLowerCase child.name = toLowerCase key) :
    (assignMaterial toLowerCase child).material = m := by
  have hfind := find?_key_of_injective toLowerCase key child.name hname _ hkey hinj
  have hne : key ≠ "" := (loadedTextures_lookup key hkey).1
  simp only [assignMaterial, hfind, hm, ne_eq, hne, not_false_eq_true, if_true, Option.getD_some]

theorem assignMaterial_of_no_key (toLowerCase : String → String) (child : Object3D R)
    (hno : ∀ key ∈ Object.keys loadedTextures, toLowerCase key ≠ toLowerCase child.name) :
    assignMaterial toLowerCase child =
      if includes child.name "Glass" then { child with material := glassMaterial } else child := by
  have hfind : (Object.keys loadedTextures).find?
      (fun key => toLowerCase key == toLowerCase child.name) = none := by
    rw [List.find?_eq_none]
    intro k hk
    simpa using hno k hk
  simp only [assignMaterial, hfind]

theorem asciiToLowerCase_keys :
    ∀ k ∈ Object.keys loadedTextures, ∀ k' ∈ Object.keys loadedTextures,
      asciiToLowerCase k = asciiToLowerCase k' → k = k' := by
  have hfix : ∀ k ∈ Object.keys loadedTextures, asciiToLowerCase k = k := by
    rw [loadedTextures_keys]
    decide
  intro k hk k' hk' h
  rw [hfix k hk, hfix k' hk'] at h
  exact h

/-- C3. Let `toLowerCase` send different texture keys to different strings (the
host function does: the keys are lower-case already).  For a key of the texture
table, let `m` be the material stored under it, `loadedTextures[key]`, a
`MeshBasicMaterial` around the texture of that key's path.  Then
(1) the callback assigns `m` to every mesh whose name equals the key after
lower-casing both, and that depends on the name only;
(2) for every sequence `nodes` in which a traversal passes objects to the
callback, the mesh passed at position `i` is left with material `m`;
(3) so for any two orders `nodes` and `nodes2` of the same objects, the mesh is
left with material `m` in both;
(4) the same holds for the load callback on a model graph. -/
theorem texture_material_by_name (toLowerCase : String → String)
    (hinj : ∀ k ∈ Object.keys loadedTextures, ∀ k' ∈ Object.keys loadedTextures,
      toLowerCase k = toLowerCase k' → k = k')
    (key : String) (hkey : key ∈ Object.keys loadedTextures) :
    ∃ slot path, (key, path) ∈ textureMap ∧
      loadedTextures.lookup key = some (Material.basic slot path) ∧
      (∀ child : Object3D R, toLowerCase child.name = toLowerCase key →
        (assignMaterial toLowerCase child).material = Material.basic slot path) ∧
      (∀ (w : World R) (nodes : List (Object3D R)) (i : Nat) (child : Object3D R),
        nodes[i]? = some child → child.isMesh = true →
        toLowerCase child.name = toLowerCase key →
        ∃ c, (visitAll toLowerCase w nodes).model[w.model.length + i]? = some c ∧
          c.id = child.id ∧ c.name = child.name ∧ c.material = Material.basic slot path) ∧
      (∀ (w : World R) (nodes nodes2 : List (Object3D R)) (i : Nat) (child : Object3D R),
        nodes.Perm nodes2 → nodes[i]? = some child → child.isMesh = true →
        toLowerCase child.name = toLowerCase key →
        ∃ j c c2, nodes2[j]? = some child ∧
          (visitAll toLowerCase w nodes).model[w.model.length + i]? = some c ∧
          (visitAll toLowerCase w nodes2).model[w.model.length + j]? = some c2 ∧
          c.material = Material.basic slot path ∧ c2.material = Material.basic slot path) ∧
      (∀ (w : World R) (gltfScene : Graph (Object3D R)) (i : Nat) (child : Object3D R),
        gltfScene.traverse[i]? = some child → child.isMesh = true →
        toLowerCase child.name = toLowerCase key →
        ∃ c, (loadCallback toLowerCase w gltfScene).model[w.model.length + i]? = some c ∧
          c.id = child.id ∧ c.name = child.name ∧ c.material = Material.basic slot path) := by
  obtain ⟨-, slot, path, hmem, hlook⟩ := loadedTextures_lookup key hkey
  have hassign : ∀ child : Object3D R, toLowerCase child.name = toLowerCase key →
      (assignMaterial toLowerCase child).material = Material.basic slot path :=
    fun child hname => assignMaterial_of_key toLowerCase hinj key hkey _ hlook child hname
  have hat : ∀ (w : World R) (nodes : List (Object3D R)) (i : Nat) (child : Object3D R),
      nodes[i]? = some child → child.isMesh = true →
      toLowerCase child.name = toLowerCase key →
      ∃ c, (visitAll toLowerCase w nodes).model[w.model.length + i]? = some c ∧
        c.id = child.id ∧ c.name = child.name ∧ c.material = Material.basic slot path := by
    intro w nodes i child hi hmesh hname
    obtain ⟨c, hc, hid, hn, -, hmat⟩ := visitAll_material_at toLowerCase w nodes i child hi
    refine ⟨c, hc, hid, hn, ?_⟩
    rw [hmat, if_pos hmesh]
    exact hassign child hname
  refine ⟨slot, path, hmem, hlook, hassign, hat, ?_, ?_⟩
  · intro w nodes nodes2 i child hperm hi hmesh hname
    have hin : child ∈ nodes2 := hperm.subset (List.mem_iff_getElem?.mpr ⟨i, hi⟩)
    obtain ⟨j, hj⟩ := List.mem_iff_getElem?.mp hin
    obtain ⟨c, hc, -, -, hmat⟩ := hat w nodes i child hi hmesh hname
    obtain ⟨c2, hc2, -, -, hmat2⟩ := hat w nodes2 j child hj hmesh hname
    exact ⟨j, c, c2, hj, hc, hc2, hmat, hmat2⟩
  · intro w gltfScene i child hi hmesh hname
    exact hat w gltfScene.traverse i child hi hmesh hname

theorem texture_material_by_name_witness :
    (assignMaterial asciiToLowerCase sampleGithub).material
        = Material.basic 2 "textures/room/Poster.001.webp" ∧
    ∃ c, sampleWorld.model[1]? = some c ∧ c.id = 1 ∧
      c.material = Material.basic 2 "textures/room/Poster.001.webp" := by
  obtain ⟨slot, path, -, hlook, hassign, -, -, hload⟩ :=
    texture_material_by_name asciiToLowerCase (R := ℚ) asciiToLowerCase_keys "github" (by decide)
  have hval : loadedTextures.lookup "github"
      = some (Material.basic 2 "textures/room/Poster.001.webp") := by
    decide
  rw [hval] at hlook
  have hm := Option.some.inj hlook
  refine ⟨?_, ?_⟩
  · rw [hm]
    exact hassign sampleGithub (by decide)
  · obtain ⟨c, hc, hid, -, hmat⟩ :=
      hload (init 800 600) sampleScene 1 sampleGithub rfl rfl (by decide)
    exact ⟨c, hc, hid, by rw [hm]; exact hmat⟩

/-- C7. For a mesh whose name equals no key of the texture table after
lower-casing both: if the name includes "Glass", the callback assigns the one
shared `glassMaterial`; if it does not, the callback leaves the mesh as it is,
with the material it had.  The same is true of the mesh as the load callback
leaves it in the model graph. -/
theorem glass_material_by_name (toLowerCase : String → String) (child : Object3D R)
    (hno : ∀ key ∈ Object.keys loadedTextures, toLowerCase key ≠ toLowerCase child.name) :
    (includes child.name "Glass" = true →
      (assignMaterial toLowerCase child).material = glassMaterial) ∧
    (includes child.name "Glass" = false → assignMaterial toLowerCase child = child) ∧
    (∀ (w : World R) (gltfScene : Graph (Object3D R)) (i : Nat),
      gltfScene.traverse[i]? = some child → child.isMesh = true →
      ∃ c, (loadCallback toLowerCase w gltfScene).model[w.model.length + i]? = some c ∧
        c.id = child.id ∧ c.name = child.name ∧
        (includes child.name "Glass" = true → c.material = glassMaterial) ∧
        (includes child.name "Glass" = false → c.material = child.material)) := by
  have hassign := assignMaterial_of_no_key toLowerCase child hno
  refine ⟨?_, ?_, ?_⟩
  · intro hg
    rw [hassign, if_pos hg]
  · intro hg
    rw [hassign, hg]
    rfl
  · intro w gltfScene i hi hmesh
    obtain ⟨c, hc, hid, hn, -, hmat⟩ :=
      visitAll_material_at toLowerCase w gltfScene.traverse i child hi
    refine ⟨c, hc, hid, hn, ?_, ?_⟩
    · intro hg
      rw [hmat, if_pos hmesh, hassign, if_pos hg]
    · intro hg
      rw [hmat, if_pos hmesh, hassign, hg]
      rfl

theorem glass_material_by_name_witness :
    (assignMaterial asciiToLowerCase sampleGlass).material = glassMaterial ∧
    assignMaterial asciiToLowerCase sampleLamp = sampleLamp ∧
    (∃ c, sampleWorld.model[3]? = some c ∧ c.id = 3 ∧ c.material = glassMaterial) ∧
    (∃ c, sampleWorld.model[4]? = some c ∧ c.id = 4 ∧ c.material = Material.gltf 4) := by
  have hglass : ∀ key ∈ Object.keys loadedTextures,
      asciiToLowerCase key ≠ asciiToLowerCase sampleGlass.name := by
    rw [loadedTextures_keys]
    decide
  have hlamp : ∀ key ∈ Object.keys loadedTextures,
      asciiToLowerCase key ≠ asciiToLowerCase sampleLamp.name := by
    rw [loadedTextures_keys]
    decide
  obtain ⟨g1, -, g3⟩ := glass_material_by_name asciiToLowerCase sampleGlass hglass
  obtain ⟨-, l2, l3⟩ := glass_material_by_name asciiToLowerCase sampleLamp hlamp
  refine ⟨g1 (by decide), l2 (by decide), ?_, ?_⟩
  · obtain ⟨c, hc, hid, -, hmat, -⟩ := g3 (init 800 600) sampleScene 3 rfl rfl
    exact ⟨c, hc, hid, hmat (by decide)⟩
  · obtain ⟨c, hc, hid, -, -, hmat⟩ := l3 (init 800 600) sampleScene 4 rfl rfl
    exact ⟨c, hc, hid, hmat (by decide)⟩

/-! ### Clickable registration -/

theorem paired_of_empty (w : World R) (hc : w.clickableObjects = []) (hs : w.shadows = [])
    (hn : w.sceneChildren = []) : w.Paired := by
  refine ⟨?_, ?_, ?_⟩
  · rw [hc, hs]; rfl
  · rw [hn, hs]; rfl
  · intro e he
    rw [hc] at he
    cases he

theorem paired_length (w : World R) (hp : w.Paired) :
    w.shadows.length = w.clickableObjects.length := by
  have h := congrArg List.length hp.1
  simp only [List.length_map, List.length_range] at h
  exact h.symm

theorem count_shadow_of_paired (w : World R) (hp : w.Paired) (index : Nat)
    (hlt : index < w.shadows.length) :
    (w.sceneChildren ++ [SceneChild.gltfScene]).count (SceneChild.shadow index) = 1 := by
  have hinj : Function.Injective SceneChild.shadow := by
    intro a b h
    exact SceneChild.shadow.inj h
  have hnodup : w.sceneChildren.Nodup := by
    rw [hp.2.1]
    exact (List.nodup_range _).map hinj
  have hmem : SceneChild.shadow index ∈ w.sceneChildren := by
    rw [hp.2.1]
    exact List.mem_map.mpr ⟨index, List.mem_range.mpr hlt, rfl⟩
  rw [List.count_append, List.count_eq_one_of_mem hnodup hmem]
  simp

/-- C1. Let the load callback run on a model graph in a state in which no
object is clickable and no shadow exists yet, and let `child` be a mesh of the
graph (the `i`-th object of the traversal) whose lower-cased name includes
"github" or "linkedin".  Then the object the callback leaves in the graph at
that place, `entry`, is in the clickable list; its scale is collapsed to zero
and its recorded original scale is the scale `child` had; it is paired with
one shadow, `index`, which exists, has been added to the scene exactly once
and sits at the offset chosen from the name; the entrance interpolation of its
scale targets the scale `child` had, that of its shadow the footprint
(`z * 1.4`, `y * 0.8`, `1`) of that scale.  Overall there are as many shadows
as clickable entries: the `k`-th clickable entry is paired with shadow `k`, and
the scene holds shadows `0, 1, ...` once each, followed by the model. -/
theorem scene_assembly_registers_clickable (toLowerCase : String → String) (w : World R)
    (gltfScene : Graph (Object3D R)) (i : Nat) (child : Object3D R)
    (hc0 : w.clickableObjects = []) (hs0 : w.shadows = []) (hn0 : w.sceneChildren = [])
    (hi : gltfScene.traverse[i]? = some child) (hmesh : child.isMesh = true)
    (hname : includes (toLowerCase child.name) "github" = true ∨
      includes (toLowerCase child.name) "linkedin" = true) :
    ∃ (entry : Object3D R) (index : Nat) (shadow : ShadowMesh R),
      (loadCallback toLowerCase w gltfScene).model[w.model.length + i]? = some entry ∧
      entry ∈ (loadCallback toLowerCase w gltfScene).clickableObjects ∧
      entry.id = child.id ∧ entry.name = child.name ∧
      entry.scale = { x := 0.0, y := 0.0, z := 0.0 } ∧
      entry.userData.originalScale = some child.scale ∧
      entry.userData.shadow = some index ∧
      (loadCallback toLowerCase w gltfScene).shadows[index]? = some shadow ∧
      shadow.position = shadowPosition (toLowerCase child.name) child.position
        { x := 0.0, y := 0.0, z := 0.0 } ∧
      (loadCallback toLowerCase w gltfScene).sceneChildren.count (SceneChild.shadow index) = 1 ∧
      entranceScaleTween child.id child.scale (entranceDelay (toLowerCase child.name))
        ∈ (loadCallback toLowerCase w gltfScene).tweens ∧
      (entranceScaleTween child.id child.scale
          (entranceDelay (toLowerCase child.name) : R)).vars.x = some child.scale.x ∧
      (entranceScaleTween child.id child.scale
          (entranceDelay (toLowerCase child.name) : R)).vars.y = some child.scale.y ∧
      (entranceScaleTween child.id child.scale
          (entranceDelay (toLowerCase child.name) : R)).vars.z = some child.scale.z ∧
      entranceShadowTween index child.scale (entranceDelay (toLowerCase child.name))
        ∈ (loadCallback toLowerCase w gltfScene).tweens ∧
      (loadCallback toLowerCase w gltfScene).shadows.length
        = (loadCallback toLowerCase w gltfScene).clickableObjects.length ∧
      (loadCallback toLowerCase w gltfScene).clickableObjects.map (fun e => e.userData.shadow)
        = (List.range (loadCallback toLowerCase w gltfScene).shadows.length).map some ∧
      (loadCallback toLowerCase w gltfScene).sceneChildren
        = (List.range (loadCallback toLowerCase w gltfScene).shadows.length).map
            SceneChild.shadow ++ [SceneChild.gltfScene] := by
  have hp0 : w.Paired := paired_of_empty w hc0 hs0 hn0
  have hpf : (visitAll toLowerCase w gltfScene.traverse).Paired :=
    visitAll_paired toLowerCase w _ hp0
  obtain ⟨w1, hlen, -, -, hfin⟩ := visitAll_at toLowerCase w gltfScene.traverse i child hi
  obtain ⟨entry, shadow, hid, hnm, hscale, hos, hsh, hpos, hmodel, hcl, hshs, -, htw⟩ :=
    onChild_clickable toLowerCase w1 child hmesh hname
  obtain ⟨fm, fc, fs, ft, fn⟩ := loadCallback_fields toLowerCase w gltfScene
  have hshadow : (visitAll toLowerCase w gltfScene.traverse).shadows[w1.shadows.length]?
      = some shadow := by
    apply getElem?_of_prefix hfin.2.2.1
    rw [hshs]
    simp
  have hlt : w1.shadows.length < (visitAll toLowerCase w gltfScene.traverse).shadows.length := by
    by_contra hge
    rw [List.getElem?_eq_none (Nat.le_of_not_lt hge)] at hshadow
    exact Option.noConfusion hshadow
  refine ⟨entry, w1.shadows.length, shadow, ?_, ?_, hid, hnm, hscale, hos, hsh, ?_, hpos, ?_, ?_,
    rfl, rfl, rfl, ?_, ?_, ?_, ?_⟩
  · rw [fm]
    apply getElem?_of_prefix hfin.1
    rw [hmodel, ← hlen]
    simp
  · rw [fc]
    apply hfin.2.1.subset
    rw [hcl]
    simp
  · rw [fs]
    exact hshadow
  · rw [fn]
    exact count_shadow_of_paired _ hpf _ hlt
  · rw [ft]
    apply hfin.2.2.2.2.subset
    rw [htw]
    simp
  · rw [ft]
    apply hfin.2.2.2.2.subset
    rw [htw]
    simp
  · rw [fs, fc]
    exact paired_length _ hpf
  · rw [fs, fc]
    exact hpf.1
  · rw [fs, fn, hpf.2.1]

theorem scene_assembly_registers_clickable_witness :
    ∃ (entry : Object3D ℚ) (index : Nat) (shadow : ShadowMesh ℚ),
      sampleWorld.model[1]? = some entry ∧
      entry ∈ sampleWorld.clickableObjects ∧
      entry.id = 1 ∧ entry.name = "Github" ∧
      entry.scale = { x := 0.0, y := 0.0, z := 0.0 } ∧
      entry.userData.originalScale = some githubScale ∧
      entry.userData.shadow = some index ∧
      sampleWorld.shadows[index]? = some shadow ∧
      shadow.position = shadowPosition (asciiToLowerCase "Github") sampleGithub.position
        { x := 0.0, y := 0.0, z := 0.0 } ∧
      sampleWorld.sceneChildren.count (SceneChild.shadow index) = 1 ∧
      entranceScaleTween 1 githubScale (entranceDelay (asciiToLowerCase "Github"))
        ∈ sampleWorld.tweens ∧
      (entranceScaleTween 1 githubScale
          (entranceDelay (asciiToLowerCase "Github") : ℚ)).vars.x = some 2 ∧
      (entranceScaleTween 1 githubScale
          (entranceDelay (asciiToLowerCase "Github") : ℚ)).vars.y = some 3 ∧
      (entranceScaleTween 1 githubScale
          (entranceDelay (asciiToLowerCase "Github") : ℚ)).vars.z = some 4 ∧
      entranceShadowTween index githubScale (entranceDelay (asciiToLowerCase "Github"))
        ∈ sampleWorld.tweens ∧
      sampleWorld.shadows.length = sampleWorld.clickableObjects.length ∧
      sampleWorld.clickableObjects.map (fun e => e.userData.shadow)
        = (List.range sampleWorld.shadows.length).map some ∧
      sampleWorld.sceneChildren
        = (List.range sampleWorld.shadows.length).map SceneChild.shadow
            ++ [SceneChild.gltfScene] :=
  scene_assembly_registers_clickable asciiToLowerCase (init 800 600) sampleScene 1 sampleGithub
    rfl rfl rfl rfl rfl (Or.inl (by decide))
